import Mathlib

/-
Verification of the SSE streaming contract of the interview repository:
the Angular client stream consumer in agent-stream.service.ts, its two
consumer call sites in interview-room.component.ts and search.component.ts,
the SanitizeHtmlPipe and ListInterviewsComponent helpers, and the
server-side stream producer described in the design spec.

JavaScript strings are modelled by Lean String values; the string
operations used by the code (split, startsWith, substring, trim) are
embedded as structurally recursive functions over the underlying
character list so that concrete runs evaluate inside the kernel.
-/

/-- JS p is a leading segment of l: character-list form of s.startsWith(p). -/
def startsWithList : List Char → List Char → Bool
  | [], _ => true
  | _ :: _, [] => false
  | p :: ps, c :: cs => p == c && startsWithList ps cs

/-- JS text.split on the two-newline separator, the only separator the client
uses. Accumulates the current segment in reverse in cur; leftmost,
non-overlapping matches, trailing empty segment kept, exactly as JS split. -/
def splitBlankAux (cur : List Char) : List Char → List (List Char)
  | '\n' :: '\n' :: rest => cur.reverse :: splitBlankAux [] rest
  | c :: rest => splitBlankAux (c :: cur) rest
  | [] => [cur.reverse]

/-- JS text.split of the service: const lines = text.split(backslash-n backslash-n). -/
def jsSplitBlank (s : String) : List String :=
  (splitBlankAux [] s.data).map String.mk

/-- JS line.substring(n) for the ASCII prefixes used here: drop n characters. -/
def jsSubstringFrom (n : Nat) (s : String) : String :=
  String.mk (s.data.drop n)

/-- JS s.trim(): remove leading and trailing whitespace. -/
def jsTrim (s : String) : String :=
  String.mk (((s.data.dropWhile Char.isWhitespace).reverse.dropWhile Char.isWhitespace).reverse)

/-- Client-side StreamEvent interface of agent-stream.service.ts. The data
payload is any in TypeScript and the service never inspects it, so it stays
a type parameter. -/
structure StreamEvent (δ : Type) where
  event_type : String
  timestamp : String
  data : δ
deriving DecidableEq

/-- Client handling of one segment produced by the split, from
agent-stream.service.ts lines 44-52: if the line starts with the data prefix,
strip the first 6 characters and JSON.parse the rest inside try/catch.
JSON.parse is a platform primitive, not repository code, so it is a
parameter P; P returning none models JSON.parse throwing, in which case the
event is dropped (the catch only logs). -/
def decodeFrameLine {α : Type} (P : String → Option α) (line : String) : Option α :=
  if startsWithList "data: ".data line.data then P (jsSubstringFrom 6 line) else none

/-- Client processing of one DownloadProgress callback, from
agent-stream.service.ts lines 39-53: split the delivered text on blank lines
and forward every successfully parsed data frame, in order, to the subject. -/
def parseSSEText {α : Type} (P : String → Option α) (text : String) : List α :=
  (jsSplitBlank text).filterMap (decodeFrameLine P)

/-- Successive values of event.partialText when the response body arrives in
the given byte chunks: the Angular HttpClient exposes the cumulative body
downloaded so far, so callback i sees the concatenation of chunks 0..i. -/
def accumTexts (acc : String) : List String → List String
  | [] => []
  | c :: rest => (acc ++ c) :: accumTexts (acc ++ c) rest

/-- Every event value the service passes to subject.next across a whole run
in which the body arrives in the given chunks: each DownloadProgress callback
re-parses the entire cumulative text (the service keeps no cursor). -/
def clientEmissions {α : Type} (P : String → Option α) (chunks : List String) : List α :=
  ((accumTexts "" chunks).map (parseSSEText P)).flatten

/-- HttpClient events seen by the subscriber callback of streamAnswer.
progress carries the cumulative partialText; other stands for the event
types the code ignores (Sent, headers, upload progress). -/
inductive HttpEvt where
  | progress (textSoFar : String)
  | response
  | other
deriving DecidableEq

/-- How the source observable ends: its complete callback or its error
callback with a transport-level error of type ε. -/
inductive HttpTermination (ε : Type) where
  | completed
  | failed (err : ε)

/-- Calls the service makes on its internal Subject. -/
inductive SubjectAction (α ε : Type) where
  | next (value : α)
  | complete
  | error (err : ε)
deriving DecidableEq

/-- Reaction of the next callback of streamAnswer to one HttpClient event:
DownloadProgress parses and forwards events, Response completes the subject,
everything else is ignored. -/
def handleHttpEvent {α ε : Type} (P : String → Option α) : HttpEvt → List (SubjectAction α ε)
  | HttpEvt.progress t => (parseSSEText P t).map SubjectAction.next
  | HttpEvt.response => [SubjectAction.complete]
  | HttpEvt.other => []

/-- Complete sequence of calls streamAnswer makes on its Subject during one
run: the reactions to each delivered HttpClient event, then the reaction to
how the source observable terminated (its complete callback also completes
the subject; its error callback forwards the error). -/
def rawSubjectActions {α ε : Type} (P : String → Option α)
    (evts : List HttpEvt) (term : HttpTermination ε) : List (SubjectAction α ε) :=
  (evts.map (handleHttpEvent P)).flatten ++
    (match term with
     | HttpTermination.completed => [SubjectAction.complete]
     | HttpTermination.failed e => [SubjectAction.error e])

/-- Terminal subject calls: complete and error end the subscription. -/
def isTerminalAction {α ε : Type} : SubjectAction α ε → Bool
  | SubjectAction.next _ => false
  | SubjectAction.complete => true
  | SubjectAction.error _ => true

/-- RxJS Subject delivery semantics: a subscriber receives the calls up to
and including the first terminal one; next, complete and error calls made
after the subject has terminated are ignored. -/
def subjectView {α ε : Type} : List (SubjectAction α ε) → List (SubjectAction α ε)
  | [] => []
  | a :: rest => if isTerminalAction a then [a] else a :: subjectView rest

/-- Number of completion signals in a subject action sequence. -/
def countComplete {α ε : Type} (l : List (SubjectAction α ε)) : Nat :=
  l.countP (fun a => match a with | SubjectAction.complete => true | _ => false)

/-- Number of error signals in a subject action sequence. -/
def countError {α ε : Type} (l : List (SubjectAction α ε)) : Nat :=
  l.countP (fun a => match a with | SubjectAction.error _ => true | _ => false)

/-- Cumulative partialText values delivered to progress callbacks, extracted
from a run: used to state that every next-ed value was parsed from the body. -/
def progressTexts (evts : List HttpEvt) : List String :=
  evts.filterMap (fun ev => match ev with | HttpEvt.progress t => some t | _ => none)

/-- Concrete first body part of the split-frame delivery from the spec test:
a complete start frame followed by the first half of a second frame. The JSON
payload texts are abstracted to brace-free placeholder strings since the
parse function is a parameter. -/
def delivery1 : String := "data: EVSTART\n\nda"

/-- Concrete second body part: the remaining half of the second frame, so the
cumulative text after it contains two complete frames. -/
def delivery2 : String := "ta: EVCOMPLETE\n\n"

/-- Concrete stand-in for JSON.parse in the split-frame run: parses exactly
the two payload texts of the two frames, rejects everything else. -/
def demoParse : String → Option (StreamEvent Unit) :=
  fun s =>
    if s = "EVSTART" then some ⟨"start", "t0", ()⟩
    else if s = "EVCOMPLETE" then some ⟨"complete", "t1", ()⟩
    else none

/-- Concrete delivered buffer containing a malformed frame between two well
formed ones, for the error-handling witness. -/
def mixedFramesText : String := "data: GOODA\n\ndata: BROKEN\n\ndata: GOODB"

/-- Concrete stand-in for JSON.parse that fails on the malformed payload. -/
def mixedParse : String → Option Nat :=
  fun s => if s = "GOODA" then some 1 else if s = "GOODB" then some 2 else none

/-- Concrete event list for the transport-failure witness: one progress
delivery and one ignored event, no Response. -/
def failedRunEvts : List HttpEvt := [HttpEvt.progress "data: GOODA\n\n", HttpEvt.other]

/-- Producer-side event, modelled from the spec: the server code
(agents/router.py) is not part of src/, only its documentation is, so the
wire events of sections 4.1 and 6 are embedded from the spec. Timestamps are
omitted (the spec declares them informational only); confidence is a
rational. -/
inductive ProducerEvent where
  | start (message question : String)
  | routing (selected_agent reasoning : String) (confidence : ℚ)
  | processing (message agent : String)
  | content (chunk : String) (is_final : Bool)
  | answer_complete (full_answer : String) (word_count character_count : Nat)
  | follow_ups (questions : List String)
  | complete (message agent_used : String) (success : Bool)
  | error (message : String)
deriving DecidableEq

/-- Routing result of the classification step, modelled from the spec. -/
structure RoutingDecision where
  selected_agent : String
  reasoning : String
  confidence : ℚ

/-- Split a character list into consecutive pieces of n characters, the last
piece possibly shorter; n = 0 is guarded to return the whole text as one
piece. Modelled from the spec: the producer slices the answer into
fixed-size substrings of a configured chunk length. -/
def chunksList (n : Nat) : List Char → List (List Char)
  | [] => []
  | c :: rest =>
    if n = 0 then [c :: rest]
    else (c :: rest).take n :: chunksList n ((c :: rest).drop n)
termination_by l => l.length
decreasing_by
  simp only [List.length_drop, List.length_cons]
  omega

/-- String form of the fixed-size slicing of the full answer. -/
def chunksOfString (n : Nat) (s : String) : List String :=
  (chunksList n s.data).map String.mk

/-- Modelled from the spec: one content event per chunk, is_final true on and
only on the last chunk. -/
def contentEvents : List String → List ProducerEvent
  | [] => []
  | [c] => [ProducerEvent.content c true]
  | c :: c2 :: rest => ProducerEvent.content c false :: contentEvents (c2 :: rest)

/-- Word counter for the answer statistics, modelled from the spec: number of
maximal whitespace-separated words. inWord records whether the previous
character belonged to a word. -/
def countWordsAux (inWord : Bool) : List Char → Nat
  | [] => 0
  | c :: rest =>
    if Char.isWhitespace c then countWordsAux false rest
    else (if inWord then 0 else 1) + countWordsAux true rest

/-- Word count of the full answer, modelled from the spec statistics. -/
def wordCount (s : String) : Nat := countWordsAux false s.data

/-- Modelled from the spec: the full event sequence the producer emits for
one accepted question (spec sections 4.1 and 7). The three fallible pipeline
stages are parameters; an Except error at a stage makes the producer emit a
single error event carrying its message and terminate the sequence early.
chunkSize is the configured chunk length (50 in the repository docs). -/
def producerRun (question : String)
    (routeStep : Except String RoutingDecision)
    (answerStep : Except String String)
    (followStep : Except String (List String))
    (chunkSize : Nat) : List ProducerEvent :=
  ProducerEvent.start "Processing question..." question ::
    (match routeStep with
     | Except.error m => [ProducerEvent.error m]
     | Except.ok r =>
       ProducerEvent.routing r.selected_agent r.reasoning r.confidence ::
       ProducerEvent.processing ("Processing with " ++ r.selected_agent ++ " agent...") r.selected_agent ::
         (match answerStep with
          | Except.error m => [ProducerEvent.error m]
          | Except.ok ans =>
            contentEvents (chunksOfString chunkSize ans) ++
              ProducerEvent.answer_complete ans (wordCount ans) ans.length ::
                (match followStep with
                 | Except.error m => [ProducerEvent.error m]
                 | Except.ok qs =>
                   [ProducerEvent.follow_ups qs,
                    ProducerEvent.complete "Processing complete" r.selected_agent true])))

/-- Detector for start events. -/
def isStartEvent : ProducerEvent → Bool
  | ProducerEvent.start _ _ => true
  | _ => false

/-- Detector for routing events. -/
def isRoutingEvent : ProducerEvent → Bool
  | ProducerEvent.routing _ _ _ => true
  | _ => false

/-- Detector for the complete terminal event. -/
def isCompleteEvent : ProducerEvent → Bool
  | ProducerEvent.complete _ _ _ => true
  | _ => false

/-- Detector for the error terminal event. -/
def isErrorEvent : ProducerEvent → Bool
  | ProducerEvent.error _ => true
  | _ => false

/-- Sequence of is_final flags of the content events of a run, in order. -/
def contentFinalFlags (l : List ProducerEvent) : List Bool :=
  l.filterMap (fun e => match e with | ProducerEvent.content _ f => some f | _ => none)

/-- Sequence of chunk payloads of the content events of a run, in order. -/
def contentChunks (l : List ProducerEvent) : List String :=
  l.filterMap (fun e => match e with | ProducerEvent.content c _ => some c | _ => none)

/-- Sequence of full_answer payloads of the answer_complete events of a run. -/
def answerCompletePayloads (l : List ProducerEvent) : List String :=
  l.filterMap (fun e => match e with | ProducerEvent.answer_complete fa _ _ => some fa | _ => none)

/-- Boolean encoding of: the flag list is empty, or true appears exactly at
its last position. -/
def lastFlagOnly : List Bool → Bool
  | [] => true
  | [b] => b
  | b :: b2 :: rest => !b && lastFlagOnly (b2 :: rest)

/-- Error event payload as the two consumer call sites can see it: each of
the two candidate field names is present or absent. none models a field that
is absent (JS undefined). -/
structure ErrorPayload where
  error : Option String
  message : Option String

/-- JS a or-else b on optional string fields: a if present and truthy (a
nonempty string), otherwise b. The empty string is falsy in JS. -/
def jsOrElse (a b : Option String) : Option String :=
  match a with
  | some s => if s = "" then b else some s
  | none => b

/-- Text of the system message the interview-room error branch adds
(interview-room.component.ts line 148): the template literal prints an
absent field as the string undefined. -/
def roomErrorSystemMessage (d : ErrorPayload) : String :=
  "Error: " ++ (match d.message with | some s => s | none => "undefined")

/-- Value the search error branch stores in streamingState.error
(search.component.ts line 320): event.data.error or-else event.data.message. -/
def searchStoredError (d : ErrorPayload) : Option String :=
  jsOrElse d.error d.message

/-- SanitizeHtmlPipe.transform from sanitize-html.pipe.ts. none models a
null or undefined input. The markdown-to-HTML conversion chain and the final
bypassSecurityTrustHtml wrapper are abstracted as the parameter convert,
because the claim under verification concerns only the empty-input guard:
the guard if not value return empty-string fires before any conversion, so
the theorem quantifies over every possible conversion function. -/
def sanitizeTransform (convert : String → String) (value : Option String) : String :=
  match value with
  | none => ""
  | some v => if v = "" then "" else convert v

/-- Interview record of list-interviews.component.ts. -/
structure Interview where
  interview_id : Nat
  company_name : String
  role_name : String
  interview_type : String
  seniority_level : String
  interview_status : String
  interview_result : String
  first_interview_date : String
  application_date : String
  total_rounds : Nat
  preparation_hours : Option Nat

/-- Completed filter of ListInterviewsComponent.getSuccessRate. -/
def completedInterviews (interviews : List Interview) : List Interview :=
  interviews.filter (fun i => i.interview_status = "completed")

/-- Successful filter of getSuccessRate: completed interviews whose result is
passed, hire or strong_hire. -/
def successfulInterviews (interviews : List Interview) : List Interview :=
  (completedInterviews interviews).filter
    (fun i => ["passed", "hire", "strong_hire"].contains i.interview_result)

/-- ListInterviewsComponent.getSuccessRate: percentage of successful among
completed interviews, 0 when none is completed. JS number arithmetic on
these small counts is modelled in the rationals. -/
def getSuccessRate (interviews : List Interview) : ℚ :=
  if 0 < (completedInterviews interviews).length then
    ((successfulInterviews interviews).length : ℚ)
      / ((completedInterviews interviews).length : ℚ) * 100
  else 0

/-- Chat message of interview-room.component.ts; timestamps are the
environment-supplied Date values, modelled as strings. -/
structure Message where
  role : String
  content : String
  timestamp : String
  agentType : Option String
deriving DecidableEq

/-- Entry of the conversation history sent to the backend. -/
structure HistoryEntry where
  question : String
  answer : String
  agent : String
deriving DecidableEq

/-- QuestionRequest interface of agent-stream.service.ts. -/
structure QuestionRequest where
  question : String
  context : Option String
  conversation_history : List HistoryEntry
deriving DecidableEq

/-- Component state of InterviewRoomComponent that sendQuestion reads or
writes. -/
structure RoomState where
  question : String
  context : String
  messages : List Message
  currentAnswer : String
  isStreaming : Bool
  currentAgent : String
  routingReasoning : String
  confidence : ℚ
  followUpQuestions : List String
  conversationHistory : List HistoryEntry
  streamingStatus : String
  showRouting : Bool
  showProcessing : Bool
deriving DecidableEq

/-- Synchronous part of InterviewRoomComponent.sendQuestion: the guard on the
trimmed question, the user message appended to the chat, the state reset, the
request construction (context falls back to undefined when empty) and the
clearing of the input. Returns the new state and the request handed to
streamAnswer, none when the guard returns early. now is the Date value the
environment supplies for the appended message. -/
def sendQuestion (now : String) (s : RoomState) : RoomState × Option QuestionRequest :=
  if jsTrim s.question = "" then (s, none)
  else
    let afterUser :=
      { s with messages := s.messages ++ [(⟨"user", s.question, now, none⟩ : Message)] }
    let reset :=
      { afterUser with
          currentAnswer := "", followUpQuestions := [], isStreaming := true,
          showRouting := false, showProcessing := false }
    let req : QuestionRequest :=
      ⟨s.question, if s.context = "" then none else some s.context, s.conversationHistory⟩
    ({ reset with question := "" }, some req)

/-- Concrete whitespace-only room state for the frame-condition witness. -/
def roomStateDemo : RoomState where
  question := "  \n "
  context := "ctx"
  messages := [⟨"system", "Welcome", "t0", none⟩]
  currentAnswer := "ans"
  isStreaming := false
  currentAgent := "technical"
  routingReasoning := "reasons"
  confidence := 1
  followUpQuestions := ["follow"]
  conversationHistory := [⟨"q", "a", "technical"⟩]
  streamingStatus := "status"
  showRouting := false
  showProcessing := false

/-- Hardcoded interview data of ListInterviewsComponent.loadHardcodedData,
used as the concrete input of the success-rate witness. -/
def interviewsDemo : List Interview :=
  [⟨1, "Google", "Senior Product Manager", "actual", "senior", "scheduled", "pending",
      "2025-01-15", "2025-01-05", 5, some 20⟩,
   ⟨2, "Meta", "Technical Product Manager", "actual", "senior", "in_progress", "pending",
      "2025-01-10", "2024-12-28", 4, some 15⟩,
   ⟨3, "Amazon", "Product Manager", "actual", "mid_level", "completed", "passed",
      "2024-12-20", "2024-12-10", 4, some 18⟩,
   ⟨4, "Microsoft", "GenAI Architect", "actual", "senior", "scheduled", "pending",
      "2025-01-20", "2025-01-08", 5, some 25⟩,
   ⟨5, "Netflix", "Product Head", "actual", "director", "completed", "no_hire",
      "2024-12-15", "2024-12-01", 6, some 30⟩,
   ⟨6, "Apple", "Senior Technical Product Manager", "actual", "senior", "in_progress", "pending",
      "2025-01-08", "2024-12-20", 5, some 22⟩,
   ⟨7, "Anthropic", "GenAI Architect", "actual", "staff", "scheduled", "pending",
      "2025-01-25", "2025-01-10", 4, some 28⟩,
   ⟨8, "OpenAI", "Product Manager - AI", "actual", "senior", "cancelled", "unknown",
      "2025-01-12", "2024-12-30", 0, some 10⟩,
   ⟨9, "Startup XYZ", "Head of Product", "actual", "vp", "completed", "strong_hire",
      "2024-12-18", "2024-12-08", 3, some 12⟩,
   ⟨10, "Databricks", "Data Product Manager", "actual", "senior", "completed", "hire",
      "2024-12-22", "2024-12-12", 4, some 16⟩]

/-- C1: the claim states that the two-part delivery with an event frame split
across the parts makes streamAnswer emit exactly two parsed StreamEvents with
no duplicate emission. The code instead re-splits the cumulative partialText
on every DownloadProgress callback, so the second callback re-parses the
already-handled first frame: the run emits three events, the start event
twice. This theorem evaluates the embedded code at the failing input of the
spec test. -/
theorem c1_split_frame_duplicates :
    clientEmissions demoParse [delivery1, delivery2] =
      ([⟨"start", "t0", ()⟩, ⟨"start", "t0", ()⟩, ⟨"complete", "t1", ()⟩] :
        List (StreamEvent Unit)) ∧
    (clientEmissions demoParse [delivery1, delivery2]).length ≠ 2 := by
  constructor
  · decide
  · decide

/-- C4: every blank-line-separated segment of a delivered buffer that starts
with the data prefix is parsed with the prefix stripped, and a segment whose
JSON is malformed (P rejects it) is dropped without aborting: the parse of
the whole buffer equals the parses of the segments before and after the bad
one, so every later well-formed event is still emitted. -/
theorem c4_malformed_frame_nonfatal {α : Type} (P : String → Option α) (text : String)
    (pre post : List String) (bad : String)
    (hsplit : jsSplitBlank text = pre ++ bad :: post)
    (hbad : P (jsSubstringFrom 6 bad) = none) :
    parseSSEText P text =
      pre.filterMap (decodeFrameLine P) ++ post.filterMap (decodeFrameLine P) := by
  have hdec : decodeFrameLine P bad = none := by
    unfold decodeFrameLine
    cases h : startsWithList "data: ".data bad.data <;> simp [hbad]
  unfold parseSSEText
  rw [hsplit, List.filterMap_append]
  simp [List.filterMap_cons, hdec]

/-- C4 witness: concrete buffer with a malformed middle frame between two
well-formed frames; the two good events survive. -/
theorem c4_malformed_frame_nonfatal_witness :
    mixedParse (jsSubstringFrom 6 "data: BROKEN") = none ∧
    parseSSEText mixedParse mixedFramesText =
      ["data: GOODA"].filterMap (decodeFrameLine mixedParse) ++
        ["data: GOODB"].filterMap (decodeFrameLine mixedParse) :=
  ⟨by decide,
    c4_malformed_frame_nonfatal mixedParse mixedFramesText
      ["data: GOODA"] ["data: GOODB"] "data: BROKEN" (by decide) (by decide)⟩

/-- C7: on an error event whose payload has exactly the message field, the
interview-room handler displays the system message Error-colon-m and the
search handler stores m in streamingState.error, because the absent error
field makes the or-else fall through to message. -/
theorem c7_error_text_agrees (m : String) :
    roomErrorSystemMessage ⟨none, some m⟩ = "Error: " ++ m ∧
    searchStoredError ⟨none, some m⟩ = some m :=
  ⟨rfl, rfl⟩

/-- C8: SanitizeHtmlPipe.transform returns the empty string on empty, null or
undefined input, for every possible markdown conversion function, so no
conversion is performed on that path. -/
theorem c8_empty_input_guard (convert : String → String) :
    sanitizeTransform convert none = "" ∧ sanitizeTransform convert (some "") = "" := by
  constructor
  · rfl
  · simp [sanitizeTransform]

/-- Helper: subject delivery distributes over a block of non-terminal calls. -/
theorem subjectView_append_nonterm {α ε : Type} (l r : List (SubjectAction α ε))
    (h : ∀ a ∈ l, isTerminalAction a = false) :
    subjectView (l ++ r) = l ++ subjectView r := by
  induction l with
  | nil => simp
  | cons a tl ih =>
    have ha := h a (List.mem_cons_self a tl)
    simp only [List.cons_append, subjectView, ha, Bool.false_eq_true, if_false, List.append_eq]
    rw [ih (fun x hx => h x (List.mem_cons_of_mem a hx))]

/-- Helper: next calls are not terminal. -/
theorem mem_map_next_nonterm {α ε : Type} (xs : List α) :
    ∀ a ∈ xs.map (SubjectAction.next : α → SubjectAction α ε), isTerminalAction a = false := by
  intro a ha
  obtain ⟨y, _, rfl⟩ := List.mem_map.mp ha
  rfl

/-- Helper: completion count distributes over append. -/
theorem countComplete_append {α ε : Type} (l r : List (SubjectAction α ε)) :
    countComplete (l ++ r) = countComplete l + countComplete r :=
  List.countP_append _ _ _

/-- Helper: error count distributes over append. -/
theorem countError_append {α ε : Type} (l r : List (SubjectAction α ε)) :
    countError (l ++ r) = countError l + countError r :=
  List.countP_append _ _ _

/-- Helper: a block of next calls contains no completion signal. -/
theorem countComplete_map_next {α ε : Type} (xs : List α) :
    countComplete (xs.map (SubjectAction.next : α → SubjectAction α ε)) = 0 := by
  unfold countComplete
  rw [List.countP_map]
  exact List.countP_eq_zero.mpr (fun a _ => by simp [Function.comp])

/-- Helper: a block of next calls contains no error signal. -/
theorem countError_map_next {α ε : Type} (xs : List α) :
    countError (xs.map (SubjectAction.next : α → SubjectAction α ε)) = 0 := by
  unfold countError
  rw [List.countP_map]
  exact List.countP_eq_zero.mpr (fun a _ => by simp [Function.comp])

/-- Helper: a text in progressTexts comes from a progress event of the run. -/
theorem mem_progressTexts {evts : List HttpEvt} {t : String}
    (h : t ∈ progressTexts evts) : HttpEvt.progress t ∈ evts := by
  unfold progressTexts at h
  obtain ⟨ev, hev, hsome⟩ := List.mem_filterMap.mp h
  cases ev with
  | progress t2 =>
    simp only [Option.some.injEq] at hsome
    exact hsome ▸ hev
  | response => simp at hsome
  | other => simp at hsome

/-- Helper: closed form of what a subscriber sees in a run that terminates
through the error callback and never sees a Response event: all parsed events
from every progress delivery, then the transport error, nothing truncated. -/
theorem rawView_failed {α ε : Type} (P : String → Option α) (e : ε) (evts : List HttpEvt)
    (hnr : HttpEvt.response ∉ evts) :
    subjectView (rawSubjectActions P evts (HttpTermination.failed e)) =
      (((progressTexts evts).map (parseSSEText P)).flatten).map SubjectAction.next
        ++ [SubjectAction.error e] := by
  induction evts with
  | nil => rfl
  | cons ev rest ih =>
    cases ev with
    | progress t =>
      have hr : HttpEvt.response ∉ rest := fun h => hnr (List.mem_cons_of_mem _ h)
      have hx : rawSubjectActions P (HttpEvt.progress t :: rest) (HttpTermination.failed e) =
          (parseSSEText P t).map SubjectAction.next
            ++ rawSubjectActions P rest (HttpTermination.failed e) := by
        simp [rawSubjectActions, handleHttpEvent]
      rw [hx, subjectView_append_nonterm _ _ (mem_map_next_nonterm _), ih hr]
      simp [progressTexts]
    | response => exact absurd (List.mem_cons_self _ _) hnr
    | other =>
      have hr : HttpEvt.response ∉ rest := fun h => hnr (List.mem_cons_of_mem _ h)
      have hx : rawSubjectActions P (HttpEvt.other :: rest) (HttpTermination.failed e) =
          rawSubjectActions P rest (HttpTermination.failed e) := by
        simp [rawSubjectActions, handleHttpEvent]
      rw [hx, ih hr]
      simp [progressTexts]

/-- C5: in a run whose HTTP request fails at the transport level (the source
observable errors and no Response event was delivered), the subscriber is
signalled failure exactly once on the error channel, never completion, and
every StreamEvent delivered on the next channel was parsed out of a delivered
body text: the client fabricates no synthetic error event. -/
theorem c5_transport_failure {α ε : Type} (P : String → Option α)
    (evts : List HttpEvt) (e : ε)
    (hnr : HttpEvt.response ∉ evts) :
    countError (subjectView (rawSubjectActions P evts (HttpTermination.failed e))) = 1 ∧
    countComplete (subjectView (rawSubjectActions P evts (HttpTermination.failed e))) = 0 ∧
    ∀ x, SubjectAction.next x ∈ subjectView (rawSubjectActions P evts (HttpTermination.failed e)) →
      ∃ t, HttpEvt.progress t ∈ evts ∧ x ∈ parseSSEText P t := by
  rw [rawView_failed P e evts hnr]
  refine ⟨?_, ?_, ?_⟩
  · rw [countError_append, countError_map_next]
    rfl
  · rw [countComplete_append, countComplete_map_next]
    rfl
  · intro x hx
    rcases List.mem_append.mp hx with hx | hx
    · obtain ⟨y, hy, hyx⟩ := List.mem_map.mp hx
      obtain ⟨l, hl, hyl⟩ := List.mem_flatten.mp hy
      obtain ⟨t, ht, hpt⟩ := List.mem_map.mp hl
      refine ⟨t, mem_progressTexts ht, ?_⟩
      cases hyx
      exact hpt ▸ hyl
    · simp at hx
  

/-- C5 witness: concrete failed run with one progress delivery and one
ignored event, transport error 42. -/
theorem c5_transport_failure_witness :
    HttpEvt.response ∉ failedRunEvts ∧
    (countError (subjectView (rawSubjectActions mixedParse failedRunEvts (HttpTermination.failed 42))) = 1 ∧
    countComplete (subjectView (rawSubjectActions mixedParse failedRunEvts (HttpTermination.failed 42))) = 0 ∧
    ∀ x, SubjectAction.next x ∈ subjectView (rawSubjectActions mixedParse failedRunEvts (HttpTermination.failed 42)) →
      ∃ t, HttpEvt.progress t ∈ failedRunEvts ∧ x ∈ parseSSEText mixedParse t) :=
  ⟨by decide, c5_transport_failure mixedParse failedRunEvts 42 (by decide)⟩

/-- C6: in a run whose HTTP response completes normally, the subscriber is
signalled completion exactly once and never failure, although both the
Response branch of the next callback and the source observables complete
callback call complete on the internal Subject: the Subject ignores the
second call because it has already terminated. -/
theorem c6_complete_exactly_once {α ε : Type} (P : String → Option α) (evts : List HttpEvt) :
    countComplete (subjectView (rawSubjectActions P evts (HttpTermination.completed : HttpTermination ε))) = 1 ∧
    countError (subjectView (rawSubjectActions P evts (HttpTermination.completed : HttpTermination ε))) = 0 := by
  induction evts with
  | nil => constructor <;> rfl
  | cons ev rest ih =>
    cases ev with
    | progress t =>
      have hx : rawSubjectActions P (HttpEvt.progress t :: rest) (HttpTermination.completed : HttpTermination ε) =
          (parseSSEText P t).map SubjectAction.next
            ++ rawSubjectActions P rest HttpTermination.completed := by
        simp [rawSubjectActions, handleHttpEvent]
      rw [hx, subjectView_append_nonterm _ _ (mem_map_next_nonterm _)]
      constructor
      · rw [countComplete_append, countComplete_map_next, Nat.zero_add]
        exact ih.1
      · rw [countError_append, countError_map_next, Nat.zero_add]
        exact ih.2
    | response =>
      have hx : rawSubjectActions P (HttpEvt.response :: rest) (HttpTermination.completed : HttpTermination ε) =
          SubjectAction.complete :: rawSubjectActions P rest HttpTermination.completed := by
        simp [rawSubjectActions, handleHttpEvent]
      rw [hx]
      constructor <;>
        simp [subjectView, isTerminalAction, countComplete, countError, List.countP_cons]
    | other =>
      have hx : rawSubjectActions P (HttpEvt.other :: rest) (HttpTermination.completed : HttpTermination ε) =
          rawSubjectActions P rest HttpTermination.completed := by
        simp [rawSubjectActions, handleHttpEvent]
      rw [hx]
      exact ih

/-- Helper: content events satisfy no predicate that is false on content. -/
theorem countP_contentEvents_zero (p : ProducerEvent → Bool)
    (hp : ∀ c f, p (ProducerEvent.content c f) = false) (l : List String) :
    (contentEvents l).countP p = 0 := by
  induction l with
  | nil => rfl
  | cons c rest ih =>
    cases rest with
    | nil => simp [contentEvents, List.countP_cons, hp]
    | cons c2 r2 =>
      have h1 : contentEvents (c :: c2 :: r2)
          = ProducerEvent.content c false :: contentEvents (c2 :: r2) := rfl
      rw [h1, List.countP_cons, hp, ih]
      simp

/-- Helper: the flag list of the content events of a nonempty chunk list is
nonempty. -/
theorem contentFinalFlags_contentEvents_ne (c : String) (rest : List String) :
    contentFinalFlags (contentEvents (c :: rest)) ≠ [] := by
  cases rest <;> simp [contentEvents, contentFinalFlags]

/-- Helper: a leading false flag does not change the last-flag-only check on
a nonempty tail. -/
theorem lastFlagOnly_cons_false (X : List Bool) (hX : X ≠ []) :
    lastFlagOnly (false :: X) = lastFlagOnly X := by
  cases X with
  | nil => exact absurd rfl hX
  | cons b bs => rfl

/-- Helper: the content events built from any chunk list carry is_final true
on and only on the last one. -/
theorem lastFlagOnly_contentEvents (l : List String) :
    lastFlagOnly (contentFinalFlags (contentEvents l)) = true := by
  induction l with
  | nil => rfl
  | cons c rest ih =>
    cases rest with
    | nil => rfl
    | cons c2 r2 =>
      have h1 : contentEvents (c :: c2 :: r2)
          = ProducerEvent.content c false :: contentEvents (c2 :: r2) := rfl
      have h2 : contentFinalFlags (ProducerEvent.content c false :: contentEvents (c2 :: r2))
          = false :: contentFinalFlags (contentEvents (c2 :: r2)) := by
        simp [contentFinalFlags]
      rw [h1, h2, lastFlagOnly_cons_false _ (contentFinalFlags_contentEvents_ne c2 r2)]
      exact ih

/-- Helper: the chunk payloads of the content events are the chunk list. -/
theorem contentChunks_contentEvents (l : List String) :
    contentChunks (contentEvents l) = l := by
  induction l with
  | nil => rfl
  | cons c rest ih =>
    cases rest with
    | nil => rfl
    | cons c2 r2 =>
      have h1 : contentEvents (c :: c2 :: r2)
          = ProducerEvent.content c false :: contentEvents (c2 :: r2) := rfl
      rw [h1]
      have h2 : contentChunks (ProducerEvent.content c false :: contentEvents (c2 :: r2))
          = c :: contentChunks (contentEvents (c2 :: r2)) := by
        simp [contentChunks]
      rw [h2, ih]

/-- Helper: content events carry no answer_complete payload. -/
theorem answerCompletePayloads_contentEvents (l : List String) :
    answerCompletePayloads (contentEvents l) = [] := by
  induction l with
  | nil => rfl
  | cons c rest ih =>
    cases rest with
    | nil => rfl
    | cons c2 r2 =>
      have h1 : contentEvents (c :: c2 :: r2)
          = ProducerEvent.content c false :: contentEvents (c2 :: r2) := rfl
      rw [h1]
      simpa [answerCompletePayloads] using ih

/-- Helper: content events contribute no final flag outside their own list
and no start, routing or terminal event; flag list of a run splits over
append. -/
theorem contentFinalFlags_append (l r : List ProducerEvent) :
    contentFinalFlags (l ++ r) = contentFinalFlags l ++ contentFinalFlags r :=
  List.filterMap_append l r _

/-- Helper: splitting a character list into chunks loses nothing. -/
theorem chunksList_flatten (n : Nat) (l : List Char) : (chunksList n l).flatten = l := by
  induction l using chunksList.induct n with
  | case1 => simp [chunksList]
  | case2 c rest hn => simp [chunksList, hn]
  | case3 c rest hn ih =>
    rw [chunksList]
    simp only [if_neg hn, List.flatten_cons, ih, List.take_append_drop]

/-- Helper: folding string append over pieces built from character lists. -/
theorem foldl_append_map_mk (acc : List Char) (ll : List (List Char)) :
    List.foldl (fun r s => r ++ s) (String.mk acc) (ll.map String.mk) =
      String.mk (acc ++ ll.flatten) := by
  induction ll generalizing acc with
  | nil => simp
  | cons a tl ih =>
    simp only [List.map_cons, List.foldl_cons]
    have hmk : String.mk acc ++ String.mk a = String.mk (acc ++ a) := rfl
    rw [hmk, ih]
    simp

/-- Helper: concatenating the fixed-size chunks of a string restores it. -/
theorem join_chunksOfString (n : Nat) (s : String) :
    String.join (chunksOfString n s) = s := by
  have h0 : ("" : String) = String.mk [] := rfl
  unfold String.join chunksOfString
  rw [h0, foldl_append_map_mk, chunksList_flatten]
  rfl

/-- C2: for every accepted question and every outcome of the fallible
pipeline stages, the produced event sequence has exactly one start event, at
most one routing event, is_final true on and only on the last content event
(encoded with lastFlagOnly over the flag list), and exactly one terminal
event: the complete and error counts sum to one, so the two are mutually
exclusive and neither appears twice. -/
theorem c2_event_sequence_shape (question : String)
    (routeStep : Except String RoutingDecision) (answerStep : Except String String)
    (followStep : Except String (List String)) (chunkSize : Nat) :
    (producerRun question routeStep answerStep followStep chunkSize).countP isStartEvent = 1 ∧
    (producerRun question routeStep answerStep followStep chunkSize).countP isRoutingEvent ≤ 1 ∧
    lastFlagOnly (contentFinalFlags
      (producerRun question routeStep answerStep followStep chunkSize)) = true ∧
    (producerRun question routeStep answerStep followStep chunkSize).countP isCompleteEvent +
      (producerRun question routeStep answerStep followStep chunkSize).countP isErrorEvent = 1 := by
  have hstart : ∀ c f, isStartEvent (ProducerEvent.content c f) = false := fun c f => rfl
  have hrout : ∀ c f, isRoutingEvent (ProducerEvent.content c f) = false := fun c f => rfl
  have hcomp : ∀ c f, isCompleteEvent (ProducerEvent.content c f) = false := fun c f => rfl
  have herr : ∀ c f, isErrorEvent (ProducerEvent.content c f) = false := fun c f => rfl
  cases routeStep with
  | error m =>
    refine ⟨?_, ?_, ?_, ?_⟩ <;>
      simp [producerRun, List.countP_cons, isStartEvent, isRoutingEvent, isCompleteEvent,
        isErrorEvent, contentFinalFlags, lastFlagOnly]
  | ok r =>
    cases answerStep with
    | error m =>
      refine ⟨?_, ?_, ?_, ?_⟩ <;>
        simp [producerRun, List.countP_cons, isStartEvent, isRoutingEvent, isCompleteEvent,
          isErrorEvent, contentFinalFlags, lastFlagOnly]
    | ok ans =>
      cases followStep with
      | error m =>
        refine ⟨?_, ?_, ?_, ?_⟩ <;>
          simp [producerRun, List.countP_cons, List.countP_append, isStartEvent, isRoutingEvent,
            isCompleteEvent, isErrorEvent, contentFinalFlags, List.filterMap_append,
            List.filterMap_cons, countP_contentEvents_zero isStartEvent hstart,
            countP_contentEvents_zero isRoutingEvent hrout,
            countP_contentEvents_zero isCompleteEvent hcomp,
            countP_contentEvents_zero isErrorEvent herr,
            lastFlagOnly_contentEvents]
        exact lastFlagOnly_contentEvents _
      | ok qs =>
        refine ⟨?_, ?_, ?_, ?_⟩ <;>
          simp [producerRun, List.countP_cons, List.countP_append, isStartEvent, isRoutingEvent,
            isCompleteEvent, isErrorEvent, contentFinalFlags, List.filterMap_append,
            List.filterMap_cons, countP_contentEvents_zero isStartEvent hstart,
            countP_contentEvents_zero isRoutingEvent hrout,
            countP_contentEvents_zero isCompleteEvent hcomp,
            countP_contentEvents_zero isErrorEvent herr,
            lastFlagOnly_contentEvents]
        exact lastFlagOnly_contentEvents _

/-- C3: for every successful streamed answer, concatenating the chunk fields
of the content events in emission order yields exactly the full_answer string
carried by the single answer_complete event, the chunks being the fixed-size
slices of the answer. -/
theorem c3_content_concat (question : String) (r : RoutingDecision) (ans : String)
    (qs : List String) (chunkSize : Nat) :
    String.join (contentChunks
      (producerRun question (Except.ok r) (Except.ok ans) (Except.ok qs) chunkSize)) = ans ∧
    contentChunks (producerRun question (Except.ok r) (Except.ok ans) (Except.ok qs) chunkSize)
      = chunksOfString chunkSize ans ∧
    answerCompletePayloads
      (producerRun question (Except.ok r) (Except.ok ans) (Except.ok qs) chunkSize) = [ans] := by
  have hchunks : contentChunks
      (producerRun question (Except.ok r) (Except.ok ans) (Except.ok qs) chunkSize)
      = chunksOfString chunkSize ans := by
    have h := contentChunks_contentEvents (chunksOfString chunkSize ans)
    simp only [producerRun, contentChunks, List.filterMap_cons, List.filterMap_append,
      List.filterMap_nil] at h ⊢
    simp [h]
  have hpay : answerCompletePayloads
      (producerRun question (Except.ok r) (Except.ok ans) (Except.ok qs) chunkSize) = [ans] := by
    have h := answerCompletePayloads_contentEvents (chunksOfString chunkSize ans)
    simp only [producerRun, answerCompletePayloads, List.filterMap_cons, List.filterMap_append,
      List.filterMap_nil] at h ⊢
    simp [h]
  exact ⟨hchunks ▸ join_chunksOfString chunkSize ans, hchunks, hpay⟩

/-- C9: getSuccessRate never divides by zero: with no completed interview it
returns 0 through the guarded branch, and in every state the result lies in
the closed interval from 0 to 100 because the successful interviews are a
filter of the completed ones. -/
theorem c9_success_rate_safe (interviews : List Interview) :
    0 ≤ getSuccessRate interviews ∧ getSuccessRate interviews ≤ 100 ∧
    ((completedInterviews interviews).length = 0 → getSuccessRate interviews = 0) := by
  have hsc : (successfulInterviews interviews).length
      ≤ (completedInterviews interviews).length := by
    unfold successfulInterviews
    exact List.length_filter_le _ _
  unfold getSuccessRate
  by_cases h : 0 < (completedInterviews interviews).length
  · rw [if_pos h]
    have hc0 : (0 : ℚ) < ((completedInterviews interviews).length : ℚ) := by exact_mod_cast h
    refine ⟨by positivity, ?_, ?_⟩
    · have hdiv : ((successfulInterviews interviews).length : ℚ)
          / ((completedInterviews interviews).length : ℚ) ≤ 1 := by
        rw [div_le_one hc0]
        exact_mod_cast hsc
      linarith [hdiv]
    · intro h0
      omega
  · rw [if_neg h]
    exact ⟨le_refl 0, by norm_num, fun _ => rfl⟩

/-- C9 witness: the component's hardcoded ten interviews, four of them
completed. -/
theorem c9_success_rate_safe_witness :
    0 ≤ getSuccessRate interviewsDemo ∧ getSuccessRate interviewsDemo ≤ 100 ∧
    ((completedInterviews interviewsDemo).length = 0 → getSuccessRate interviewsDemo = 0) :=
  c9_success_rate_safe interviewsDemo

/-- C10: sendQuestion called with an empty or whitespace-only question
returns through the guard: the component state is unchanged and no streaming
request is issued. -/
theorem c10_empty_question_noop (now : String) (s : RoomState)
    (h : jsTrim s.question = "") :
    sendQuestion now s = (s, none) := by
  unfold sendQuestion
  rw [if_pos h]

/-- C10 witness: concrete room state holding a whitespace-only question. -/
theorem c10_empty_question_noop_witness :
    jsTrim roomStateDemo.question = "" ∧
    sendQuestion "t1" roomStateDemo = (roomStateDemo, none) :=
  ⟨by decide, c10_empty_question_noop "t1" roomStateDemo (by decide)⟩
